import Mathlib

/-!
Shallow embedding of the stack-based bytecode interpreter in `src/vm.py`
(class `Frame`, class `VirtualMachine`), together with theorems settling
the frozen claims about it.

Modelling conventions:
  * Python runtime values are the closed tagged union `Value`.
  * A Python `dict` keyed by strings is an insertion-ordered association
    list `StrDict`; `dict.__setitem__` replaces the value in place when the
    key is present and appends otherwise, matching CPython 3.7+ ordering.
  * The operand stack `Frame.data_stack` is a `List Value` in the same
    order as the Python list: index 0 is the bottom, the last element is
    the top of stack.
  * `self.locals` / `self.globals` are mutable dict objects shared by
    reference between frames; we model the reference semantics with an
    explicit store `heap : List StrDict` and `Nat` references, so that
    passing the same dict twice (as `VirtualMachine.run` does) is passing
    the same reference twice.
  * Fatal Python exceptions raised by handlers (IndexError on an empty
    stack, NameError, KeyError, ...) become `Except VMErr`.
-/

/-- The closed tagged union standing for the opaque Python runtime datum. -/
inductive Value where
  | none
  | bool (b : Bool)
  | int (n : Int)
  | str (s : String)
  | tuple (elems : List Value)
  | dict (entries : List (Value × Value))
  | exc (ty : String) (arg : Value)
  | pyclass (name : String)

mutual

/-- Structural equality on values, standing for Python `==` on the
primitive data the interpreter manipulates. -/
def vbeq : Value → Value → Bool
  | .none, .none => true
  | .bool a, .bool b => a == b
  | .int a, .int b => a == b
  | .str a, .str b => a == b
  | .tuple a, .tuple b => vbeqList a b
  | .dict a, .dict b => vbeqPairs a b
  | .exc t a, .exc u b => t == u && vbeq a b
  | .pyclass a, .pyclass b => a == b
  | _, _ => false

/-- Elementwise `vbeq` on lists of values. -/
def vbeqList : List Value → List Value → Bool
  | [], [] => true
  | a :: as, b :: bs => vbeq a b && vbeqList as bs
  | _, _ => false

/-- Elementwise `vbeq` on lists of key/value pairs. -/
def vbeqPairs : List (Value × Value) → List (Value × Value) → Bool
  | [], [] => true
  | (k, v) :: as, (l, w) :: bs => vbeq k l && vbeq v w && vbeqPairs as bs
  | _, _ => false

end

/-- Python truthiness (`bool(v)`) for the modelled values. -/
def truthy : Value → Bool
  | .none => false
  | .bool b => b
  | .int n => n != 0
  | .str s => s.length != 0
  | .tuple es => es.length != 0
  | .dict es => es.length != 0
  | .exc _ _ => true
  | .pyclass _ => true

/-- `isinstance(v, BaseException)` in the modelled value universe. -/
def isExcInstance : Value → Bool
  | .exc _ _ => true
  | _ => false

/-- Python `type(v)`, as a class value. -/
def pytype : Value → Value
  | .none => .pyclass "NoneType"
  | .bool _ => .pyclass "bool"
  | .int _ => .pyclass "int"
  | .str _ => .pyclass "str"
  | .tuple _ => .pyclass "tuple"
  | .dict _ => .pyclass "dict"
  | .exc ty _ => .pyclass ty
  | .pyclass _ => .pyclass "type"

/-- An insertion-ordered Python dict keyed by identifier strings. -/
abbrev StrDict := List (String × Value)

/-- `d[k] = v` on a string-keyed dict: replace in place when present,
append otherwise (CPython insertion-order semantics). -/
def strDictSet (d : StrDict) (k : String) (v : Value) : StrDict :=
  if d.any (fun p => p.1 == k) then
    d.map (fun p => if p.1 == k then (k, v) else p)
  else
    d ++ [(k, v)]

/-- `d.get(k)` / `k in d` support: first value bound to `k`. -/
def strDictFind (d : StrDict) (k : String) : Option Value :=
  (d.find? (fun p => p.1 == k)).map (·.2)

/-- `k in d`. -/
def strDictMem (d : StrDict) (k : String) : Bool :=
  d.any (fun p => p.1 == k)

/-- `d.update(other)`: iterate `other`'s items in order, setting each. -/
def strDictUpdate (d other : StrDict) : StrDict :=
  other.foldl (fun acc p => strDictSet acc p.1 p.2) d

/-- `dict(zip(names, vals))`: zip truncates at the shorter list, and the
dict is built by setting the pairs in order. -/
def strDictFromZip (names : List String) (vals : List Value) : StrDict :=
  strDictUpdate [] (names.zip vals)

/-- `del d[k]`: drop the binding; `KeyError` (modelled by `none`) when the
key is absent. -/
def strDictDel (d : StrDict) (k : String) : Option StrDict :=
  if d.any (fun p => p.1 == k) then
    some (d.filter (fun p => !(p.1 == k)))
  else
    Option.none

/-- `d[k] = v` on a value-keyed dict (used by `build_map_op`). -/
def vdictSet (d : List (Value × Value)) (k v : Value) : List (Value × Value) :=
  if d.any (fun p => vbeq p.1 k) then
    d.map (fun p => if vbeq p.1 k then (k, v) else p)
  else
    d ++ [(k, v)]

/-- Normalize a (possibly negative) Python index for use as a slice bound
on a sequence of length `len`: negative indices count from the end, and
the result is clamped into `[0, len]`. -/
def pyBound (len : Nat) (i : Int) : Nat :=
  let j : Int := if i < 0 then (len : Int) + i else i
  if j < 0 then 0 else if (len : Int) < j then len else j.toNat

/-- Python slicing `l[a:b]` with integer bounds and step 1. -/
def pySlice {α : Type} (l : List α) (a b : Int) : List α :=
  let s := pyBound l.length a
  let e := pyBound l.length b
  (l.drop s).take (e - s)

/-- Python slicing `l[a:]`. -/
def pySliceFrom {α : Type} (l : List α) (a : Int) : List α :=
  l.drop (pyBound l.length a)

/-- Fatal interpreter-level failures: Python exceptions that escape a
handler (stack underflow is `IndexError` on `list.pop`, etc.). -/
inductive VMErr where
  | stackUnderflow
  | indexError
  | nameError (n : String)
  | keyError (n : String)
  | valueError
  | danglingRef
  | outOfFuel
deriving DecidableEq

/-- `Frame.popn` as a pure function on the operand stack: returns the new
stack and the returned values.  Translates
`returned = self.data_stack[-n:]; self.data_stack[-n:] = []` for `n > 0`,
and for `n == 0` the stack is untouched and `[]` is returned. -/
def popn (s : List Value) (n : Nat) : List Value × List Value :=
  if 0 < n then
    (s.take (s.length - n), s.drop (s.length - n))
  else
    (s, [])

/-- `Frame.pop` on the bare stack: remove and return the top (the last
element of the Python list); `IndexError` on an empty stack. -/
def popList (s : List Value) : Option (Value × List Value) :=
  match s.getLast? with
  | some v => some (v, s.dropLast)
  | Option.none => Option.none

/-- `n` successive `Frame.pop` calls: the popped values in pop order
(top first) together with the remaining stack. -/
def popSeq (s : List Value) : Nat → Option (List Value × List Value)
  | 0 => some ([], s)
  | n + 1 =>
    match popList s with
    | some (v, s') =>
      match popSeq s' n with
      | some (vs, s'') => some (v :: vs, s'')
      | Option.none => Option.none
    | Option.none => Option.none

/-- The slice of `types.CodeType` the interpreter reads: name table and
region counts/flags (`co_varnames` lists positional parameters first, then
keyword-only names, then the varargs name, then the varkwargs name). -/
structure CodeObject where
  co_varnames : List String
  co_posonlyargcount : Nat
  co_argcount : Nat
  co_kwonlyargcount : Nat
  co_flags : Nat

/-- `CO_VARARGS` flag bit. -/
def CO_VARARGS : Nat := 4

/-- `CO_VARKEYWORDS` flag bit. -/
def CO_VARKEYWORDS : Nat := 8

/-- The interpreter frame (`class Frame` in `src/vm.py`).  The `locals`
and `globals` dict attributes are references into `heap` so that dict
aliasing between frames is represented faithfully. -/
structure Frame where
  heap : List StrDict
  localsRef : Nat
  globalsRef : Nat
  builtins : StrDict
  data_stack : List Value := []
  return_value : Value := Value.none
  counter : Nat := 0
  last_exception : List Value := []
  jump : Option Nat := Option.none
  bytecode_len : Nat := 0

/-- The dict object currently referenced by `self.locals`. -/
def Frame.localsDict (f : Frame) : Option StrDict := f.heap.get? f.localsRef

/-- The dict object currently referenced by `self.globals`. -/
def Frame.globalsDict (f : Frame) : Option StrDict := f.heap.get? f.globalsRef

/-- Write back through the `self.locals` reference. -/
def Frame.setLocalsDict (f : Frame) (d : StrDict) : Frame :=
  { f with heap := f.heap.set f.localsRef d }

/-- Write back through the `self.globals` reference. -/
def Frame.setGlobalsDict (f : Frame) (d : StrDict) : Frame :=
  { f with heap := f.heap.set f.globalsRef d }

/-- `self.push(*values)`: `self.data_stack.extend(values)`. -/
def Frame.push (f : Frame) (values : List Value) : Frame :=
  { f with data_stack := f.data_stack ++ values }

/-- `self.pop()`: `self.data_stack.pop()`, IndexError on an empty list. -/
def Frame.pop (f : Frame) : Except VMErr (Value × Frame) :=
  match f.data_stack.getLast? with
  | some v => .ok (v, { f with data_stack := f.data_stack.dropLast })
  | Option.none => .error .stackUnderflow

/-- `load_const_op`: `self.push(arg)`. -/
def Frame.load_const_op (f : Frame) (arg : Value) : Frame :=
  f.push [arg]

/-- `return_value_op`: `self.return_value = self.pop()` then
`self.counter = self.bytecode_len`. -/
def Frame.return_value_op (f : Frame) : Except VMErr Frame :=
  match f.pop with
  | Except.ok (v, f1) =>
    Except.ok { f1 with return_value := v, counter := f1.bytecode_len }
  | Except.error e => Except.error e

/-- `jump_absolute_op`: `self.jump = target`. -/
def Frame.jump_absolute_op (f : Frame) (target : Nat) : Frame :=
  { f with jump := some target }

/-- `nop_op`: `pass`. -/
def Frame.nop_op (f : Frame) : Frame := f

/-- `jump_if_true_or_pop_op`: `if self.top(): self.jump = target else:
self.pop()`. -/
def Frame.jump_if_true_or_pop_op (f : Frame) (target : Nat) :
    Except VMErr Frame :=
  match f.data_stack.getLast? with
  | some v =>
    if truthy v then .ok { f with jump := some target }
    else .ok { f with data_stack := f.data_stack.dropLast }
  | Option.none => .error .stackUnderflow

/-- `jump_if_false_or_pop_op`: `if not self.top(): self.jump = target
else: self.pop()`. -/
def Frame.jump_if_false_or_pop_op (f : Frame) (target : Nat) :
    Except VMErr Frame :=
  match f.data_stack.getLast? with
  | some v =>
    if !truthy v then .ok { f with jump := some target }
    else .ok { f with data_stack := f.data_stack.dropLast }
  | Option.none => .error .stackUnderflow

/-- The dict comprehension in `build_map_op`:
`\x7btoses[i]: toses[i + 1] for i in range(2 * count - 1)\x7d`, with
`none` standing for an IndexError on an out-of-range `toses[i]`. -/
def buildMapDict (toses : List Value) (count : Nat) :
    Option (List (Value × Value)) :=
  (List.range (2 * count - 1)).foldlM
    (fun d i => do
      let k ← toses.get? i
      let v ← toses.get? (i + 1)
      pure (vdictSet d k v)) []

/-- `build_map_op`: `toses = self.popn(2 * count)` then push the dict
comprehension above. -/
def Frame.build_map_op (f : Frame) (count : Nat) : Except VMErr Frame :=
  let p := popn f.data_stack (2 * count)
  match buildMapDict p.2 count with
  | some d => .ok { f with data_stack := p.1 ++ [Value.dict d] }
  | Option.none => .error .indexError

/-- The operand-popping phase of `raise_varargs_op`: produce
`(exctype, val, tb)` (each defaulting to `None`) and the frame after the
pops, per the `argc`-directed branches of the source. -/
def Frame.raisePops (f : Frame) (argc : Nat) :
    Except VMErr (Value × Value × Value × Frame) :=
  if argc = 0 then
    match f.last_exception with
    | [et, v, t] => Except.ok (et, v, t, f)
    | _ => Except.error VMErr.valueError
  else if argc = 1 then
    match f.pop with
    | Except.ok (et, f1) => Except.ok (et, Value.none, Value.none, f1)
    | Except.error e => Except.error e
  else if argc = 2 then
    match f.pop with
    | Except.ok (v, f1) =>
      match f1.pop with
      | Except.ok (et, f2) => Except.ok (et, v, Value.none, f2)
      | Except.error e => Except.error e
    | Except.error e => Except.error e
  else if argc = 3 then
    match f.pop with
    | Except.ok (t, f1) =>
      match f1.pop with
      | Except.ok (v, f2) =>
        match f2.pop with
        | Except.ok (et, f3) => Except.ok (et, v, t, f3)
        | Except.error e => Except.error e
      | Except.error e => Except.error e
    | Except.error e => Except.error e
  else
    Except.ok (Value.none, Value.none, Value.none, f)

/-- `raise_varargs_op`, returning the frame together with the handler's
Python return value (`'reraise'` or `'exception'`).  After the pops, the
normalization step `if isinstance(exctype, BaseException): val = exctype;
exctype = type(val)` runs, the record is stored in `last_exception`, and
the outcome string is computed from the truthiness of `tb`. -/
def Frame.raise_varargs_op (f : Frame) (argc : Nat) :
    Except VMErr (Frame × Option String) :=
  match f.raisePops argc with
  | Except.error e => Except.error e
  | Except.ok (exctype0, val0, tb, f') =>
    let norm :=
      if isExcInstance exctype0 then (pytype exctype0, exctype0)
      else (exctype0, val0)
    Except.ok ({ f' with last_exception := [norm.1, norm.2, tb] },
      some (if truthy tb then "reraise" else "exception"))

/-- `store_name_op`: `const = self.pop(); self.locals[arg] = const`. -/
def Frame.store_name_op (f : Frame) (arg : String) : Except VMErr Frame :=
  match f.pop with
  | Except.ok (const, f1) =>
    match f1.localsDict with
    | some d => Except.ok (f1.setLocalsDict (strDictSet d arg const))
    | Option.none => Except.error VMErr.danglingRef
  | Except.error e => Except.error e

/-- `store_fast_op`: `self.locals[arg] = self.pop()`. -/
def Frame.store_fast_op (f : Frame) (arg : String) : Except VMErr Frame :=
  match f.pop with
  | Except.ok (v, f1) =>
    match f1.localsDict with
    | some d => Except.ok (f1.setLocalsDict (strDictSet d arg v))
    | Option.none => Except.error VMErr.danglingRef
  | Except.error e => Except.error e

/-- `delete_name_op`: `del self.globals[namei]`. -/
def Frame.delete_name_op (f : Frame) (namei : String) : Except VMErr Frame :=
  match f.globalsDict with
  | some d =>
    match strDictDel d namei with
    | some d' => .ok (f.setGlobalsDict d')
    | Option.none => .error (.keyError namei)
  | Option.none => .error .danglingRef

/-- `load_global_op`: globals, then builtins, else NameError; pushes the
found value. -/
def Frame.load_global_op (f : Frame) (arg : String) : Except VMErr Frame :=
  match f.globalsDict with
  | some g =>
    match strDictFind g arg with
    | some v => .ok (f.push [v])
    | Option.none =>
      match strDictFind f.builtins arg with
      | some v => .ok (f.push [v])
      | Option.none => .error (.nameError arg)
  | Option.none => .error .danglingRef

/-- The top-level frame built by `VirtualMachine.run`:
`globals_context = \x7b\x7d` and
`Frame(code_obj, builtins, globals_context, globals_context)` — the same
dict object is passed for globals and locals, so both references point at
the single heap cell. -/
def vmInitFrame (frame_builtins : StrDict) : Frame :=
  { heap := [[]], localsRef := 0, globalsRef := 0, builtins := frame_builtins }

/-- The callable value produced by `make_function_op`: the closure `f`
captures `code`, `defaults` and the defining frame object `self` (and with
it the reference `self.locals`). -/
structure MadeFunction where
  code : CodeObject
  defaults : List Value
  definingLocalsRef : Nat

/-- `make_function_op`'s construction step, after popping name, code and
defaults: the returned closure holds the defining frame's locals
reference. -/
def Frame.make_function (f : Frame) (code : CodeObject)
    (defaults : List Value) : MadeFunction :=
  { code := code, defaults := defaults, definingLocalsRef := f.localsRef }

/-- The argument-binding body of the closure `f` built by
`make_function_op` (src/vm.py lines 576–617): computes `parsed_args` from
`code`, `defaults` and the call's `args`/`kwargs`.  `none` models an
IndexError on `co_varnames` indexing. -/
def madeFunctionBind (code : CodeObject) (defaults : List Value)
    (args : List Value) (kwargs : StrDict) : Option StrDict := do
  let has_varargs := decide (code.co_flags &&& CO_VARARGS ≠ 0)
  let has_varkwargs := decide (code.co_flags &&& CO_VARKEYWORDS ≠ 0)
  -- posonly_slice = slice(None, co_posonlyargcount)
  -- pos_or_kw_slice = slice(co_posonlyargcount, co_argcount)
  -- kwonly_slice = slice(co_argcount, co_argcount + co_kwonlyargcount)
  -- defaults_slice = slice(co_kwonlyargcount - len(defaults), co_argcount)
  let defaults_names := pySlice code.co_varnames
    ((code.co_kwonlyargcount : Int) - (defaults.length : Int))
    (code.co_argcount : Int)
  let default := strDictFromZip defaults_names defaults
  let parsed_posonlyargs := strDictFromZip
    (pySlice code.co_varnames 0 (code.co_posonlyargcount : Int))
    (pySlice args 0 (code.co_posonlyargcount : Int))
  let parsed_posargs := strDictFromZip
    (pySlice code.co_varnames (code.co_posonlyargcount : Int) (code.co_argcount : Int))
    (pySlice args (code.co_posonlyargcount : Int) (code.co_argcount : Int))
  let varargs := pySliceFrom args (code.co_argcount : Int)
  let pos_or_kw_names := pySlice code.co_varnames
    (code.co_posonlyargcount : Int) (code.co_argcount : Int)
  let kwonly_names := pySlice code.co_varnames (code.co_argcount : Int)
    ((code.co_argcount : Int) + (code.co_kwonlyargcount : Int))
  let parsed := kwargs.foldl
    (fun (acc : StrDict × StrDict × StrDict) p =>
      let (pk, pko, vkw) := acc
      if p.1 ∈ pos_or_kw_names then (strDictSet pk p.1 p.2, pko, vkw)
      else if p.1 ∈ kwonly_names then (pk, strDictSet pko p.1 p.2, vkw)
      else (pk, pko, strDictSet vkw p.1 p.2)) ([], [], [])
  let (parsed_kwargs, parsed_kwonlyargs, varkwargs) := parsed
  -- parsed_args = default; parsed_args.update(
  --   \x7b**parsed_posonlyargs, **parsed_posargs, **parsed_kwargs,
  --   **parsed_kwonlyargs\x7d)
  let merged := strDictUpdate
    (strDictUpdate (strDictUpdate parsed_posonlyargs parsed_posargs) parsed_kwargs)
    parsed_kwonlyargs
  let parsed_args := strDictUpdate default merged
  let parsed_args ←
    if has_varargs then do
      let varargs_name ← code.co_varnames.get?
        (code.co_argcount + code.co_kwonlyargcount)
      pure (strDictSet parsed_args varargs_name (Value.tuple varargs))
    else pure parsed_args
  let parsed_args ←
    if has_varkwargs then do
      let varkwargs_name ← code.co_varnames.get?
        (code.co_argcount + code.co_kwonlyargcount +
          (if has_varargs then 1 else 0))
      pure (strDictSet parsed_args varkwargs_name
        (Value.dict (varkwargs.map (fun p => (Value.str p.1, p.2)))))
    else pure parsed_args
  pure parsed_args

/-- The locals seeded into the new frame by an invocation of the closure
`f`: `f_locals = dict(self.locals); f_locals.update(parsed_args)`.  The
read of `self.locals` through the captured reference happens here, at
invocation time, so `heap` is the dict store as of the call. -/
def invokeSeedLocals (heap : List StrDict) (mf : MadeFunction)
    (args : List Value) (kwargs : StrDict) : Option StrDict :=
  match madeFunctionBind mf.code mf.defaults args kwargs with
  | some parsed_args =>
    match heap.get? mf.definingLocalsRef with
    | some selfLocals => some (strDictUpdate selfLocals parsed_args)
    | Option.none => Option.none
  | Option.none => Option.none

/-- The instruction subset needed to run the dispatch loop of `Frame.run`
in the model. -/
inductive Instr where
  | load_const (arg : Value)
  | return_value
  | raise_varargs (argc : Nat)
  | jump_absolute (target : Nat)
  | nop

/-- One dispatch: `getattr(self, instruction.opname.lower() + "_op")
(instruction.argval)`.  The second component is the handler's Python
return value. -/
def execInstr (f : Frame) : Instr → Except VMErr (Frame × Option String)
  | .load_const v => .ok (f.load_const_op v, Option.none)
  | .return_value => (f.return_value_op).map (fun f' => (f', Option.none))
  | .raise_varargs argc => f.raise_varargs_op argc
  | .jump_absolute t => .ok (f.jump_absolute_op t, Option.none)
  | .nop => .ok (f.nop_op, Option.none)

/-- The `while self.counter < self.bytecode_len` loop of `Frame.run`,
with explicit fuel (the source loop can run forever).  The handler's
return value is bound and discarded, exactly as the source discards the
result of the `getattr(...)(...)` call. -/
def runLoop (instructions : List Instr) : Nat → Frame → Except VMErr Value
  | 0, _ => .error .outOfFuel
  | fuel + 1, f =>
    if f.counter < f.bytecode_len then
      match instructions.get? (f.counter / 2) with
      | Option.none => .error .indexError
      | some instruction =>
        match execInstr f instruction with
        | .error e => .error e
        | .ok (f', _) =>
          match f'.jump with
          | some j => runLoop instructions fuel
              { f' with counter := j, jump := Option.none }
          | Option.none => runLoop instructions fuel
              { f' with counter := f'.counter + 2 }
    else
      .ok f.return_value

/-- `Frame.run`: set `bytecode_len = 2 * len(instructions)`, reset the
counter, loop, and return `self.return_value`. -/
def Frame.run (f : Frame) (instructions : List Instr) (fuel : Nat) :
    Except VMErr Value :=
  runLoop instructions fuel
    { f with bytecode_len := 2 * instructions.length, counter := 0 }

/-! ### Helper lemmas -/

theorem popSeq_eq_popn (n : Nat) : ∀ s : List Value, n ≤ s.length →
    popSeq s n = some ((s.drop (s.length - n)).reverse, s.take (s.length - n)) := by
  induction n with
  | zero =>
    intro s _
    simp [popSeq]
  | succ n ih =>
    intro s hn
    have hne : s ≠ [] := by
      intro h
      rw [h] at hn
      simp at hn
    have hrepr : s.dropLast ++ [s.getLast hne] = s :=
      List.dropLast_append_getLast hne
    have hlen : s.dropLast.length = s.length - 1 := List.length_dropLast s
    have hn' : n ≤ s.dropLast.length := by
      rw [hlen]
      omega
    have hpop : popList s = some (s.getLast hne, s.dropLast) := by
      unfold popList
      rw [List.getLast?_eq_getLast s hne]
    have ihd := ih s.dropLast hn'
    simp only [popSeq, hpop, ihd]
    have hd : s.length - (n + 1) ≤ s.dropLast.length := by
      rw [hlen]; omega
    have hdl : s.dropLast.length - n = s.length - (n + 1) := by
      rw [hlen]; omega
    have hdrop : s.drop (s.length - (n + 1)) =
        s.dropLast.drop (s.length - (n + 1)) ++ [s.getLast hne] := by
      have h2 := @List.drop_append_of_le_length Value s.dropLast
        [s.getLast hne] (s.length - (n + 1)) hd
      rw [hrepr] at h2
      exact h2
    have htake : s.take (s.length - (n + 1)) =
        s.dropLast.take (s.length - (n + 1)) := by
      have h2 := @List.take_append_of_le_length Value s.dropLast
        [s.getLast hne] (s.length - (n + 1)) hd
      rw [hrepr] at h2
      exact h2
    rw [hdrop, htake, hdl]
    simp

theorem Frame.pop_concat (f : Frame) (l : List Value) (a : Value)
    (h : f.data_stack = l ++ [a]) :
    f.pop = Except.ok (a, { f with data_stack := l }) := by
  simp [Frame.pop, h, List.getLast?_concat, List.dropLast_concat]

/-! ### Claim theorems -/

/-- C8: `popn(0)` returns an empty sequence and leaves the operand stack
unchanged; and for every stack and every `n` with `0 < n ≤` the stack's
depth, `popn(n)` removes exactly `n` elements (the rest of the stack plus
the returned values reassemble the original stack) and returns them
deepest-first, equal to the reverse of the sequence obtained by `n`
successive `pop()` calls on the same stack. -/
theorem popn_matches_reversed_pops :
    (∀ s : List Value, popn s 0 = (s, [])) ∧
    (∀ (s : List Value) (n : Nat), 0 < n → n ≤ s.length →
      (popn s n).2.length = n ∧
      (popn s n).1 ++ (popn s n).2 = s ∧
      popSeq s n = some ((popn s n).2.reverse, (popn s n).1)) := by
  constructor
  · intro s
    simp [popn]
  · intro s n hpos hle
    have hp : popn s n = (s.take (s.length - n), s.drop (s.length - n)) := by
      simp [popn, hpos]
    refine ⟨?_, ?_, ?_⟩
    · rw [hp]
      simp only [List.length_drop]
      omega
    · rw [hp]
      exact List.take_append_drop _ s
    · rw [hp]
      exact popSeq_eq_popn n s hle

theorem popn_matches_reversed_pops_witness :
    popn [Value.int 1, Value.int 2, Value.int 3] 2 =
      ([Value.int 1], [Value.int 2, Value.int 3]) ∧
    popSeq [Value.int 1, Value.int 2, Value.int 3] 2 =
      some ([Value.int 3, Value.int 2], [Value.int 1]) := by
  have h := (popn_matches_reversed_pops.2
    [Value.int 1, Value.int 2, Value.int 3] 2 (by decide) (by decide)).2.2
  exact ⟨rfl, h.trans rfl⟩

/-- A frame whose operand stack holds one truthy value. -/
def frameTruthyTop : Frame :=
  { heap := [[]], localsRef := 0, globalsRef := 0, builtins := [],
    data_stack := [Value.int 1] }

/-- A frame whose operand stack holds one falsy value. -/
def frameFalsyTop : Frame :=
  { heap := [[]], localsRef := 0, globalsRef := 0, builtins := [],
    data_stack := [Value.int 0] }

/-- C3 counterexample: with the truthy value `1` on top,
`jump_if_true_or_pop` jumps (sets the pending jump to the target) yet the
tested value is still on the stack afterwards — the claim says a jumping
execution pops it. -/
theorem jump_if_true_or_pop_jump_keeps_value :
    frameTruthyTop.jump_if_true_or_pop_op 7 =
      Except.ok { frameTruthyTop with jump := some 7 } ∧
    ({ frameTruthyTop with jump := some 7 } : Frame).data_stack =
      [Value.int 1] ∧
    frameTruthyTop.data_stack = [Value.int 1] :=
  ⟨rfl, rfl, rfl⟩

/-- C3 amended: for both `jump_if_true_or_pop` and
`jump_if_false_or_pop`, starting from a frame with no pending jump, every
execution that jumps leaves the tested top-of-stack value on the stack
(the stack is unchanged), and every execution that does not jump pops
exactly the tested value. -/
theorem jump_or_pop_ops_spec (f : Frame) (target : Nat)
    (hj : f.jump = Option.none) :
    (∀ f1 : Frame, f.jump_if_true_or_pop_op target = Except.ok f1 →
      (f1.jump = some target → f1.data_stack = f.data_stack) ∧
      (f1.jump = Option.none → f1.data_stack = f.data_stack.dropLast ∧
        f.data_stack.length = f1.data_stack.length + 1)) ∧
    (∀ f1 : Frame, f.jump_if_false_or_pop_op target = Except.ok f1 →
      (f1.jump = some target → f1.data_stack = f.data_stack) ∧
      (f1.jump = Option.none → f1.data_stack = f.data_stack.dropLast ∧
        f.data_stack.length = f1.data_stack.length + 1)) := by
  have hlen : ∀ v : Value, f.data_stack.getLast? = some v →
      f.data_stack.length = f.data_stack.dropLast.length + 1 := by
    intro v hg
    have hne : f.data_stack ≠ [] := by
      intro he
      rw [he] at hg
      simp at hg
    have hpos : 0 < f.data_stack.length := List.length_pos.mpr hne
    simp only [List.length_dropLast]
    omega
  have hstepT : ∀ v : Value, f.data_stack.getLast? = some v →
      f.jump_if_true_or_pop_op target =
        if truthy v then Except.ok { f with jump := some target }
        else Except.ok { f with data_stack := f.data_stack.dropLast } := by
    intro v hg
    unfold Frame.jump_if_true_or_pop_op
    rw [hg]
  have hstepF : ∀ v : Value, f.data_stack.getLast? = some v →
      f.jump_if_false_or_pop_op target =
        if !truthy v then Except.ok { f with jump := some target }
        else Except.ok { f with data_stack := f.data_stack.dropLast } := by
    intro v hg
    unfold Frame.jump_if_false_or_pop_op
    rw [hg]
  have hempty : f.data_stack.getLast? = Option.none →
      ∀ f1 : Frame, f.jump_if_true_or_pop_op target ≠ Except.ok f1 := by
    intro hg f1
    unfold Frame.jump_if_true_or_pop_op
    rw [hg]
    simp
  have hemptyF : f.data_stack.getLast? = Option.none →
      ∀ f1 : Frame, f.jump_if_false_or_pop_op target ≠ Except.ok f1 := by
    intro hg f1
    unfold Frame.jump_if_false_or_pop_op
    rw [hg]
    simp
  constructor
  · intro f1 h
    cases hg : f.data_stack.getLast? with
    | none => exact absurd h (hempty hg f1)
    | some v =>
      rw [hstepT v hg] at h
      by_cases ht : truthy v
      · rw [if_pos ht] at h
        injection h with h
        subst h
        refine ⟨fun _ => rfl, fun hc => ?_⟩
        simp at hc
      · rw [if_neg ht] at h
        injection h with h
        subst h
        refine ⟨fun hc => absurd (hj ▸ hc) (by simp),
          fun _ => ⟨rfl, hlen v hg⟩⟩
  · intro f1 h
    cases hg : f.data_stack.getLast? with
    | none => exact absurd h (hemptyF hg f1)
    | some v =>
      rw [hstepF v hg] at h
      by_cases ht : truthy v
      · rw [if_neg (by simp [ht])] at h
        injection h with h
        subst h
        refine ⟨fun hc => absurd (hj ▸ hc) (by simp),
          fun _ => ⟨rfl, hlen v hg⟩⟩
      · rw [if_pos (by simp [Bool.not_eq_true] at ht; simp [ht])] at h
        injection h with h
        subst h
        refine ⟨fun _ => rfl, fun hc => ?_⟩
        simp at hc

theorem jump_or_pop_ops_spec_witness :
    ({ frameFalsyTop with data_stack := ([] : List Value) } : Frame).data_stack =
      frameFalsyTop.data_stack.dropLast ∧
    frameFalsyTop.data_stack.length =
      ({ frameFalsyTop with data_stack := ([] : List Value) } : Frame).data_stack.length + 1 :=
  ((jump_or_pop_ops_spec frameFalsyTop 7 rfl).1
    { frameFalsyTop with data_stack := ([] : List Value) } rfl).2 rfl

/-- A frame whose operand stack holds the four values `1, 2, 3, 4`
(bottom to top): two key/value pairs for `build_map` with `count = 2`. -/
def frameFourValues : Frame :=
  { heap := [[]], localsRef := 0, globalsRef := 0, builtins := [],
    data_stack := [Value.int 1, Value.int 2, Value.int 3, Value.int 4] }

/-- C4, evaluated at the failing input: with `count = 2` and the stack
`[1, 2, 3, 4]`, `build_map_op` pops all four values but pushes the
mapping built from the overlapping pairs `toses[i], toses[i+1]` for
`i in range(2*count - 1)`, namely `1 ↦ 2, 2 ↦ 3, 3 ↦ 4` — not the two
pairs `1 ↦ 2, 3 ↦ 4` the claim requires. -/
theorem build_map_overlapping_pairs :
    frameFourValues.build_map_op 2 =
      Except.ok { frameFourValues with data_stack :=
        [Value.dict [(Value.int 1, Value.int 2), (Value.int 2, Value.int 3),
          (Value.int 3, Value.int 4)]] } ∧
    buildMapDict [Value.int 1, Value.int 2, Value.int 3, Value.int 4] 2 =
      some [(Value.int 1, Value.int 2), (Value.int 2, Value.int 3),
        (Value.int 3, Value.int 4)] :=
  ⟨rfl, rfl⟩

/-- C7: for each `argc` in 1..3, `raise_varargs_op` pops exactly `argc`
values, interpreted deepest-first as `(type[, value[, traceback]])` (the
missing slots defaulting to `None`); when the popped type is already an
exception instance, that instance becomes the value and its type is
derived from it; the frame stores the `(type, value, traceback)` record in
`last_exception`; and the reported outcome is `"reraise"` exactly when the
traceback slot holds a truthy (present) value — for `argc = 1` and
`argc = 2` the slot is `None`, so the outcome is `"exception"`. -/
theorem raise_varargs_spec :
    (∀ (f : Frame) (rest : List Value) (ty : Value),
      f.data_stack = rest ++ [ty] →
      f.raise_varargs_op 1 = Except.ok
        ({ f with
            data_stack := rest,
            last_exception :=
              if isExcInstance ty then [pytype ty, ty, Value.none]
              else [ty, Value.none, Value.none] },
          some "exception")) ∧
    (∀ (f : Frame) (rest : List Value) (ty v : Value),
      f.data_stack = rest ++ [ty, v] →
      f.raise_varargs_op 2 = Except.ok
        ({ f with
            data_stack := rest,
            last_exception :=
              if isExcInstance ty then [pytype ty, ty, Value.none]
              else [ty, v, Value.none] },
          some "exception")) ∧
    (∀ (f : Frame) (rest : List Value) (ty v tb : Value),
      f.data_stack = rest ++ [ty, v, tb] →
      f.raise_varargs_op 3 = Except.ok
        ({ f with
            data_stack := rest,
            last_exception :=
              if isExcInstance ty then [pytype ty, ty, tb]
              else [ty, v, tb] },
          some (if truthy tb then "reraise" else "exception"))) := by
  refine ⟨?_, ?_, ?_⟩
  · intro f rest ty h
    have h1 : f.pop = Except.ok (ty, { f with data_stack := rest }) :=
      f.pop_concat rest ty h
    have hp : f.raisePops 1 =
        Except.ok (ty, Value.none, Value.none, { f with data_stack := rest }) := by
      simp [Frame.raisePops, h1]
    unfold Frame.raise_varargs_op
    rw [hp]
    by_cases hex : isExcInstance ty
    · simp [hex, truthy]
    · simp [hex, truthy]
  · intro f rest ty v h
    have h' : f.data_stack = (rest ++ [ty]) ++ [v] := by
      rw [h]; simp
    have h1 : f.pop = Except.ok (v, { f with data_stack := rest ++ [ty] }) :=
      f.pop_concat (rest ++ [ty]) v h'
    have h2 : ({ f with data_stack := rest ++ [ty] } : Frame).pop =
        Except.ok (ty, { f with data_stack := rest }) :=
      Frame.pop_concat _ rest ty rfl
    have hp : f.raisePops 2 =
        Except.ok (ty, v, Value.none, { f with data_stack := rest }) := by
      simp [Frame.raisePops, h1, h2]
    unfold Frame.raise_varargs_op
    rw [hp]
    by_cases hex : isExcInstance ty
    · simp [hex, truthy]
    · simp [hex, truthy]
  · intro f rest ty v tb h
    have h' : f.data_stack = (rest ++ [ty, v]) ++ [tb] := by
      rw [h]; simp
    have h1 : f.pop =
        Except.ok (tb, { f with data_stack := rest ++ [ty, v] }) :=
      f.pop_concat (rest ++ [ty, v]) tb h'
    have h2 : ({ f with data_stack := rest ++ [ty, v] } : Frame).pop =
        Except.ok (v, { f with data_stack := rest ++ [ty] }) :=
      Frame.pop_concat _ (rest ++ [ty]) v (by simp)
    have h3 : ({ f with data_stack := rest ++ [ty] } : Frame).pop =
        Except.ok (ty, { f with data_stack := rest }) :=
      Frame.pop_concat _ rest ty rfl
    have hp : f.raisePops 3 =
        Except.ok (ty, v, tb, { f with data_stack := rest }) := by
      simp [Frame.raisePops, h1, h2, h3]
    unfold Frame.raise_varargs_op
    rw [hp]
    by_cases hex : isExcInstance ty
    · simp [hex]
    · simp [hex]

/-- A frame whose stack top three values are an exception instance, a
value and a (truthy) traceback. -/
def frameRaise3 : Frame :=
  { heap := [[]], localsRef := 0, globalsRef := 0, builtins := [],
    data_stack := [Value.int 0, Value.exc "ValueError" (Value.str "boom"),
      Value.str "x", Value.str "tb"] }

theorem raise_varargs_spec_witness :
    frameRaise3.raise_varargs_op 3 = Except.ok
      ({ frameRaise3 with
          data_stack := [Value.int 0],
          last_exception := [Value.pyclass "ValueError",
            Value.exc "ValueError" (Value.str "boom"), Value.str "tb"] },
        some "reraise") :=
  raise_varargs_spec.2.2 frameRaise3 [Value.int 0]
    (Value.exc "ValueError" (Value.str "boom")) (Value.str "x")
    (Value.str "tb") rfl

theorem Frame.pop_ctrl (f : Frame) (v : Value) (f1 : Frame)
    (h : f.pop = Except.ok (v, f1)) :
    f1.jump = f.jump ∧ f1.counter = f.counter ∧
    f1.return_value = f.return_value ∧ f1.bytecode_len = f.bytecode_len := by
  unfold Frame.pop at h
  cases hg : f.data_stack.getLast? with
  | none => rw [hg] at h; simp at h
  | some w =>
    rw [hg] at h
    injection h with h
    injection h with h1 h2
    subst h2
    exact ⟨rfl, rfl, rfl, rfl⟩

theorem Frame.raisePops_ctrl (f : Frame) (argc : Nat) (ty v tb : Value)
    (f1 : Frame) (h : f.raisePops argc = Except.ok (ty, v, tb, f1)) :
    f1.jump = f.jump ∧ f1.counter = f.counter ∧
    f1.return_value = f.return_value ∧ f1.bytecode_len = f.bytecode_len := by
  unfold Frame.raisePops at h
  split_ifs at h
  · -- argc = 0
    split at h
    · injection h with h
      injection h with h1 h
      injection h with h2 h
      injection h with h3 h4
      subst h4
      exact ⟨rfl, rfl, rfl, rfl⟩
    · simp at h
  · -- argc = 1
    split at h
    case _ et f' heq =>
      injection h with h
      injection h with h1 h
      injection h with h2 h
      injection h with h3 h4
      subst h4
      exact Frame.pop_ctrl f et f' heq
    case _ => simp at h
  · -- argc = 2
    split at h
    case _ w f' heq =>
      split at h
      case _ et f'' heq2 =>
        injection h with h
        injection h with h1 h
        injection h with h2 h
        injection h with h3 h4
        subst h4
        have c1 := Frame.pop_ctrl f w f' heq
        have c2 := Frame.pop_ctrl f' et f'' heq2
        exact ⟨c2.1.trans c1.1, c2.2.1.trans c1.2.1,
          c2.2.2.1.trans c1.2.2.1, c2.2.2.2.trans c1.2.2.2⟩
      case _ => simp at h
    case _ => simp at h
  · -- argc = 3
    split at h
    case _ t f' heq =>
      split at h
      case _ w f'' heq2 =>
        split at h
        case _ et f3 heq3 =>
          injection h with h
          injection h with h1 h
          injection h with h2 h
          injection h with h3 h4
          subst h4
          have c1 := Frame.pop_ctrl f t f' heq
          have c2 := Frame.pop_ctrl f' w f'' heq2
          have c3 := Frame.pop_ctrl f'' et f3 heq3
          exact ⟨(c3.1.trans c2.1).trans c1.1,
            (c3.2.1.trans c2.2.1).trans c1.2.1,
            (c3.2.2.1.trans c2.2.2.1).trans c1.2.2.1,
            (c3.2.2.2.trans c2.2.2.2).trans c1.2.2.2⟩
        case _ => simp at h
      case _ => simp at h
    case _ => simp at h
  · -- other argc
    injection h with h
    injection h with h1 h
    injection h with h2 h
    injection h with h3 h4
    subst h4
    exact ⟨rfl, rfl, rfl, rfl⟩

theorem Frame.raise_op_ctrl (f : Frame) (argc : Nat) (f1 : Frame)
    (out : Option String)
    (h : f.raise_varargs_op argc = Except.ok (f1, out)) :
    f1.jump = f.jump ∧ f1.counter = f.counter ∧
    f1.return_value = f.return_value ∧ f1.bytecode_len = f.bytecode_len := by
  unfold Frame.raise_varargs_op at h
  split at h
  case _ => simp at h
  case _ ty v tb f' heq =>
    injection h with h
    injection h with h1 h2
    subst h1
    have c := Frame.raisePops_ctrl f argc _ _ _ f' heq
    exact c

/-- A program that raises mid-stream and then returns a constant. -/
def progRaise : List Instr :=
  [Instr.load_const (Value.int 7), Instr.raise_varargs 1,
   Instr.load_const (Value.int 42), Instr.return_value]

/-- A fresh frame for running `progRaise`. -/
def frameForRun : Frame :=
  { heap := [[]], localsRef := 0, globalsRef := 0, builtins := [] }

/-- C9: the dispatch loop discards every handler's return value.  After a
`raise_varargs` handler runs, the pending-jump slot, counter,
return-value slot and bytecode length are untouched, so the loop (second
conjunct) neither terminates nor transfers control: it proceeds to the
instruction at `counter + 2`, with the handler's `"reraise"/"exception"`
outcome appearing nowhere in the continuation.  Concretely (third
conjunct), a program that raises mid-stream still runs to its
`return_value` instruction and `run()` returns the return-value slot. -/
theorem run_loop_discards_raise_outcome :
    (∀ (f f1 : Frame) (argc : Nat) (out : Option String),
      f.raise_varargs_op argc = Except.ok (f1, out) →
      f1.jump = f.jump ∧ f1.counter = f.counter ∧
      f1.return_value = f.return_value ∧
      f1.bytecode_len = f.bytecode_len) ∧
    (∀ (instrs : List Instr) (fuel : Nat) (f f1 : Frame) (argc : Nat)
        (out : Option String),
      f.jump = Option.none →
      f.counter < f.bytecode_len →
      instrs.get? (f.counter / 2) = some (Instr.raise_varargs argc) →
      f.raise_varargs_op argc = Except.ok (f1, out) →
      runLoop instrs (fuel + 1) f =
        runLoop instrs fuel { f1 with counter := f1.counter + 2 }) ∧
    frameForRun.run progRaise 10 = Except.ok (Value.int 42) := by
  refine ⟨?_, ?_, rfl⟩
  · intro f f1 argc out h
    exact Frame.raise_op_ctrl f argc f1 out h
  · intro instrs fuel f f1 argc out hj hlt hget hraise
    have he : execInstr f (Instr.raise_varargs argc) = Except.ok (f1, out) :=
      hraise
    have hj1 : f1.jump = Option.none :=
      (Frame.raise_op_ctrl f argc f1 out hraise).1.trans hj
    rw [runLoop, if_pos hlt, hget]
    simp only [he, hj1]

/-- The frame of `progRaise` just before its `raise_varargs 1`
instruction. -/
def frameMidRaise : Frame :=
  { heap := [[]], localsRef := 0, globalsRef := 0, builtins := [],
    data_stack := [Value.int 7], counter := 2, bytecode_len := 8 }

/-- `frameMidRaise` after the raise handler: the operand popped, the
record stored, control state untouched. -/
def frameMidRaiseAfter : Frame :=
  { heap := [[]], localsRef := 0, globalsRef := 0, builtins := [],
    data_stack := [], counter := 2, bytecode_len := 8,
    last_exception := [Value.int 7, Value.none, Value.none] }

theorem run_loop_discards_raise_outcome_witness :
    (frameMidRaiseAfter.counter = frameMidRaise.counter ∧
      frameMidRaiseAfter.jump = frameMidRaise.jump) ∧
    runLoop progRaise 6 frameMidRaise =
      runLoop progRaise 5
        { frameMidRaiseAfter with counter := frameMidRaiseAfter.counter + 2 } := by
  have h1 := (run_loop_discards_raise_outcome.1 frameMidRaise
    frameMidRaiseAfter 1 (some "exception") rfl)
  have h2 := run_loop_discards_raise_outcome.2.1 progRaise 5 frameMidRaise
    frameMidRaiseAfter 1 (some "exception") rfl (by decide) rfl rfl
  exact ⟨⟨h1.2.1, h1.1⟩, h2⟩

theorem find?_map_set_self (d : StrDict) (k : String) (v : Value) :
    (d.map (fun p => if p.1 == k then (k, v) else p)).find?
        (fun p => p.1 == k) =
      if d.any (fun p => p.1 == k) then some (k, v) else Option.none := by
  induction d with
  | nil => simp
  | cons q d ih =>
    cases hq : (q.1 == k) with
    | true =>
      rw [List.map_cons, if_pos hq,
        @List.find?_cons_of_pos (String × Value) (fun p => p.1 == k) (k, v) _
          (by simp),
        List.any_cons, hq]
      simp
    | false =>
      rw [List.map_cons, if_neg (by simp [hq]),
        @List.find?_cons_of_neg (String × Value) (fun p => p.1 == k) q _
          (by simp [hq]),
        List.any_cons, hq]
      simpa using ih

theorem find?_map_set_ne (d : StrDict) (k n : String) (v : Value)
    (hkn : (k == n) = false) :
    (d.map (fun p => if p.1 == k then (k, v) else p)).find?
        (fun p => p.1 == n) =
      d.find? (fun p => p.1 == n) := by
  induction d with
  | nil => rfl
  | cons q d ih =>
    cases hq : (q.1 == k) with
    | true =>
      have hqk : q.1 = k := by simpa using hq
      have hqn : (q.1 == n) = false := by rw [hqk]; exact hkn
      rw [List.map_cons, if_pos hq,
        @List.find?_cons_of_neg (String × Value) (fun p => p.1 == n) (k, v) _
          (by simp [hkn]),
        @List.find?_cons_of_neg (String × Value) (fun p => p.1 == n) q _
          (by simp [hqn])]
      exact ih
    | false =>
      rw [List.map_cons, if_neg (by simp [hq])]
      cases hqn : (q.1 == n) with
      | true =>
        rw [@List.find?_cons_of_pos (String × Value) (fun p => p.1 == n) q _ hqn,
          @List.find?_cons_of_pos (String × Value) (fun p => p.1 == n) q _ hqn]
      | false =>
        rw [@List.find?_cons_of_neg (String × Value) (fun p => p.1 == n) q _
            (by simp [hqn]),
          @List.find?_cons_of_neg (String × Value) (fun p => p.1 == n) q _
            (by simp [hqn])]
        exact ih

theorem strDictFind_set_self (d : StrDict) (k : String) (v : Value) :
    strDictFind (strDictSet d k v) k = some v := by
  unfold strDictSet strDictFind
  by_cases hany : d.any (fun p => p.1 == k)
  · rw [if_pos hany, find?_map_set_self, if_pos hany]
    rfl
  · rw [if_neg hany, List.find?_append]
    have hnone : d.find? (fun p => p.1 == k) = Option.none := by
      rw [List.find?_eq_none]
      intro x hx hpx
      exact hany (List.any_eq_true.mpr ⟨x, hx, hpx⟩)
    rw [hnone]
    simp [List.find?]

theorem strDictFind_set_ne (d : StrDict) (k n : String) (v : Value)
    (hkn : (k == n) = false) :
    strDictFind (strDictSet d k v) n = strDictFind d n := by
  unfold strDictSet strDictFind
  by_cases hany : d.any (fun p => p.1 == k)
  · rw [if_pos hany, find?_map_set_ne d k n v hkn]
  · rw [if_neg hany, List.find?_append]
    have h2 : ([(k, v)] : StrDict).find? (fun p => p.1 == n) = Option.none := by
      simp [List.find?, hkn]
    rw [h2]
    cases d.find? (fun p => p.1 == n) <;> rfl

theorem strDictMem_of_find (d : StrDict) (k : String) (v : Value)
    (h : strDictFind d k = some v) : strDictMem d k = true := by
  unfold strDictFind at h
  unfold strDictMem
  cases hf : d.find? (fun p => p.1 == k) with
  | none => rw [hf] at h; simp at h
  | some q =>
    have hq := List.find?_some hf
    have hm := List.mem_of_find?_eq_some hf
    exact List.any_eq_true.mpr ⟨q, hm, hq⟩

theorem strDictFind_filter_out (d : StrDict) (k : String) :
    strDictFind (d.filter (fun p => !(p.1 == k))) k = Option.none := by
  unfold strDictFind
  have h : (d.filter (fun p => !(p.1 == k))).find? (fun p => p.1 == k) =
      Option.none := by
    rw [List.find?_eq_none]
    intro x hx
    have hker := (List.mem_filter.mp hx).2
    intro hpx
    rw [hpx] at hker
    simp at hker
  rw [h]
  rfl

theorem strDictMem_filter_out (d : StrDict) (k : String) :
    strDictMem (d.filter (fun p => !(p.1 == k))) k = false := by
  unfold strDictMem
  by_contra hc
  rw [Bool.not_eq_false] at hc
  obtain ⟨x, hx, hpx⟩ := List.any_eq_true.mp hc
  have hker := (List.mem_filter.mp hx).2
  rw [hpx] at hker
  simp at hker

theorem strDictFind_update_of_not_mem (d : StrDict) :
    ∀ (other : StrDict) (n : String), strDictMem other n = false →
      strDictFind (strDictUpdate d other) n = strDictFind d n := by
  intro other
  induction other generalizing d with
  | nil => intro n _; rfl
  | cons p rest ih =>
    intro n hmem
    unfold strDictMem at hmem
    rw [List.any_cons] at hmem
    have hp : (p.1 == n) = false := by
      cases hpn : (p.1 == n) with
      | true => rw [hpn] at hmem; simp at hmem
      | false => rfl
    have hrest : strDictMem rest n = false := by
      cases hr : rest.any (fun q => q.1 == n) with
      | true => rw [hp, hr] at hmem; simp at hmem
      | false => exact hr
    have hstep : strDictUpdate d (p :: rest) =
        strDictUpdate (strDictSet d p.1 p.2) rest := rfl
    rw [hstep, ih (strDictSet d p.1 p.2) n hrest,
      strDictFind_set_ne d p.1 n p.2 hp]

theorem heap_get_set_self (h : List StrDict) (i : Nat) (d0 d : StrDict)
    (hex : h.get? i = some d0) : (h.set i d).get? i = some d := by
  have hlt : i < h.length := by
    by_contra hn
    rw [List.get?_eq_getElem?, List.getElem?_eq_none (Nat.le_of_not_lt hn)] at hex
    simp at hex
  rw [List.get?_eq_getElem?, List.getElem?_set]
  simp [hlt, List.getElem?_eq_getElem (by simpa using hlt)]

/-- C10: the top-level frame built by `VirtualMachine.run` passes one and
the same mapping object as its globals and its locals (its two dict
references are equal); and in any frame whose locals and globals
references coincide, the two views are the same mapping, a name bound by
`store_name` is immediately visible to `load_global` (which pushes the
stored value), `delete_name` — which deletes from the globals mapping —
removes the name bound by `store_name`, and after each mutation the
locals view and the globals view still agree. -/
theorem vm_top_frame_locals_globals_alias :
    (∀ b : StrDict, (vmInitFrame b).localsRef = (vmInitFrame b).globalsRef) ∧
    (∀ f : Frame, f.localsRef = f.globalsRef → f.localsDict = f.globalsDict) ∧
    (∀ (f : Frame) (n : String) (v : Value) (f1 : Frame),
      f.localsRef = f.globalsRef →
      (f.push [v]).store_name_op n = Except.ok f1 →
      f1.load_global_op n = Except.ok (f1.push [v]) ∧
      f1.localsDict = f1.globalsDict ∧
      ∃ f2 : Frame, f1.delete_name_op n = Except.ok f2 ∧
        (∃ g2 : StrDict, f2.globalsDict = some g2 ∧ strDictMem g2 n = false) ∧
        f2.localsDict = f2.globalsDict) := by
  refine ⟨fun b => rfl, ?_, ?_⟩
  · intro f h
    unfold Frame.localsDict Frame.globalsDict
    rw [h]
  · intro f n v f1 href hstore
    have hpop : (f.push [v]).pop = Except.ok (v, f) :=
      Frame.pop_concat (f.push [v]) f.data_stack v rfl
    unfold Frame.store_name_op at hstore
    rw [hpop] at hstore
    replace hstore : (match f.localsDict with
      | some d => Except.ok (f.setLocalsDict (strDictSet d n v))
      | Option.none => Except.error VMErr.danglingRef) = Except.ok f1 := hstore
    cases hld : f.localsDict with
    | none => rw [hld] at hstore; simp at hstore
    | some d =>
      rw [hld] at hstore
      injection hstore with hstore
      subst hstore
      have hgd : (f.setLocalsDict (strDictSet d n v)).globalsDict =
          some (strDictSet d n v) := by
        show (f.heap.set f.localsRef (strDictSet d n v)).get? f.globalsRef = _
        rw [← href]
        exact heap_get_set_self f.heap f.localsRef d _ hld
      have hldagree : (f.setLocalsDict (strDictSet d n v)).localsDict =
          (f.setLocalsDict (strDictSet d n v)).globalsDict := by
        unfold Frame.localsDict Frame.globalsDict Frame.setLocalsDict
        rw [href]
      refine ⟨?_, hldagree, ?_⟩
      · simp only [Frame.load_global_op, hgd, strDictFind_set_self]
      · have hmem : strDictMem (strDictSet d n v) n = true :=
          strDictMem_of_find _ _ _ (strDictFind_set_self d n v)
        have hsdel : strDictDel (strDictSet d n v) n =
            some ((strDictSet d n v).filter (fun p => !(p.1 == n))) := by
          unfold strDictDel
          rw [if_pos ?hc]
          case hc =>
            unfold strDictMem at hmem
            exact hmem
        refine ⟨(f.setLocalsDict (strDictSet d n v)).setGlobalsDict
          ((strDictSet d n v).filter (fun p => !(p.1 == n))), ?_, ?_, ?_⟩
        · simp only [Frame.delete_name_op, hgd, hsdel]
        · refine ⟨(strDictSet d n v).filter (fun p => !(p.1 == n)), ?_,
            strDictMem_filter_out _ n⟩
          show ((f.setLocalsDict (strDictSet d n v)).heap.set
            (f.setLocalsDict (strDictSet d n v)).globalsRef _).get?
              (f.setLocalsDict (strDictSet d n v)).globalsRef = _
          exact heap_get_set_self _ _ (strDictSet d n v) _ hgd
        · unfold Frame.localsDict Frame.globalsDict Frame.setGlobalsDict
            Frame.setLocalsDict
          rw [href]

/-- The top-level frame for a tiny builtins table. -/
def vmTopFrame : Frame := vmInitFrame [("len", Value.pyclass "builtin")]

/-- `vmTopFrame` after pushing `3` and executing `store_name x`. -/
def vmTopFrameStored : Frame :=
  { vmTopFrame with heap := [[("x", Value.int 3)]] }

theorem vm_top_frame_locals_globals_alias_witness :
    vmTopFrameStored.load_global_op "x" =
      Except.ok (vmTopFrameStored.push [Value.int 3]) ∧
    vmTopFrameStored.localsDict = vmTopFrameStored.globalsDict := by
  have h := vm_top_frame_locals_globals_alias.2.2 vmTopFrame "x" (Value.int 3)
    vmTopFrameStored rfl rfl
  exact ⟨h.1, h.2.1⟩

/-- The code object of the claim's example callable: positional-only `a`,
positional-or-keyword `b`, keyword-only `c`, varargs collector `args`,
with one default value supplied for `b`. -/
def codeABCArgs : CodeObject :=
  { co_varnames := ["a", "b", "c", "args"], co_posonlyargcount := 1,
    co_argcount := 2, co_kwonlyargcount := 1, co_flags := CO_VARARGS }

/-- C1, evaluated on the code: invoking the example callable with
positional `(1,)` and keyword `c: 9` binds `a=1, c=9, args=()` and leaves
`b` entirely unbound — not `b=5` as the claim requires — because
`defaults_slice = slice(co_kwonlyargcount - len(defaults), co_argcount)`
selects the names `["a", "b"]` (third conjunct) and `zip` then pairs the
single default `5` with `a`, not with `b`.  The second invocation
`(1, 2, 3)` with `c: 9` happens to match the claim since every parameter
is supplied explicitly. -/
theorem make_function_binding_at_claim_inputs :
    madeFunctionBind codeABCArgs [Value.int 5] [Value.int 1]
      [("c", Value.int 9)] =
      some [("a", Value.int 1), ("c", Value.int 9),
        ("args", Value.tuple [])] ∧
    strDictFind [("a", Value.int 1), ("c", Value.int 9),
      ("args", Value.tuple [])] "b" = Option.none ∧
    pySlice codeABCArgs.co_varnames
      ((codeABCArgs.co_kwonlyargcount : Int) - 1)
      (codeABCArgs.co_argcount : Int) = ["a", "b"] ∧
    madeFunctionBind codeABCArgs [Value.int 5]
      [Value.int 1, Value.int 2, Value.int 3] [("c", Value.int 9)] =
      some [("a", Value.int 1), ("b", Value.int 2), ("c", Value.int 9),
        ("args", Value.tuple [Value.int 3])] :=
  ⟨rfl, rfl, rfl, rfl⟩

/-- A code object declaring a single required positional-or-keyword
parameter `a`, no defaults, no varargs/varkwargs. -/
def codeOneParam : CodeObject :=
  { co_varnames := ["a"], co_posonlyargcount := 0, co_argcount := 1,
    co_kwonlyargcount := 0, co_flags := 0 }

/-- C5, evaluated at the failing input: invoking a callable whose one
required parameter `a` receives no argument raises no binding error at
all — the binding succeeds with `a` absent, and the seeded locals then
silently pick up whatever the defining frame's locals held for `a`
(here a stale `100`). -/
theorem missing_required_arg_not_fatal :
    madeFunctionBind codeOneParam [] [] [] = some [] ∧
    invokeSeedLocals [[("a", Value.int 100)]]
      { code := codeOneParam, defaults := [], definingLocalsRef := 0 }
      [] [] = some [("a", Value.int 100)] :=
  ⟨rfl, rfl⟩

/-- C6, evaluated at the failing input: a callable with declared
positional count 1 and no varargs slot, invoked with two positional
arguments, binds `a=1` and silently discards the excess `2` — no arity
error is signalled. -/
theorem excess_positional_silently_dropped :
    madeFunctionBind codeOneParam [] [Value.int 1, Value.int 2] [] =
      some [("a", Value.int 1)] ∧
    invokeSeedLocals [[]]
      { code := codeOneParam, defaults := [], definingLocalsRef := 0 }
      [Value.int 1, Value.int 2] [] = some [("a", Value.int 1)] :=
  ⟨rfl, rfl⟩

/-- A parameterless code object. -/
def codeNoParams : CodeObject :=
  { co_varnames := [], co_posonlyargcount := 0, co_argcount := 0,
    co_kwonlyargcount := 0, co_flags := 0 }

/-- A defining frame whose locals hold `x = 1` at
Callable-construction time. -/
def defineTimeFrame : Frame :=
  { heap := [[("x", Value.int 1)]], localsRef := 0, globalsRef := 0,
    builtins := [] }

/-- The callable built by `make_function` on `defineTimeFrame` while its
locals held `x = 1`. -/
def capturedCallable : MadeFunction :=
  defineTimeFrame.make_function codeNoParams []

/-- `defineTimeFrame` after a later `store_fast x` rebinding `x` to 2. -/
def mutatedDefineFrame : Frame :=
  { defineTimeFrame with heap := [[("x", Value.int 2)]] }

/-- C2 counterexample: the callable is constructed while the defining
frame's locals hold `x = 1`; the defining frame then rebinds `x` to `2`
(first conjunct); invoking the callable afterwards seeds the new frame
with `x = 2` (second conjunct), not the construction-time `x = 1` (third
conjunct shows what an invocation before the mutation would have seeded)
— the mutation IS visible, so the locals are not a
Callable-construction-time snapshot. -/
theorem callable_locals_not_construction_snapshot :
    (defineTimeFrame.push [Value.int 2]).store_fast_op "x" =
      Except.ok mutatedDefineFrame ∧
    invokeSeedLocals mutatedDefineFrame.heap capturedCallable [] [] =
      some [("x", Value.int 2)] ∧
    invokeSeedLocals defineTimeFrame.heap capturedCallable [] [] =
      some [("x", Value.int 1)] :=
  ⟨rfl, rfl, rfl⟩

/-- C2 amended: the locals seeding the new Frame are a snapshot of the
defining Frame's locals taken at invocation time — the copy
`f_locals = dict(self.locals)` runs inside the closure body when it is
called — overlaid with the computed argument bindings.  Hence mutations
of the defining Frame's locals between construction and invocation are
visible, and every name not bound by the arguments is seeded with the
defining Frame's invocation-time value. -/
theorem invoke_seed_locals_spec (heap : List StrDict) (mf : MadeFunction)
    (args : List Value) (kwargs : StrDict) (defLocals : StrDict)
    (parsed : StrDict)
    (hL : heap.get? mf.definingLocalsRef = some defLocals)
    (hB : madeFunctionBind mf.code mf.defaults args kwargs = some parsed) :
    invokeSeedLocals heap mf args kwargs =
      some (strDictUpdate defLocals parsed) ∧
    ∀ n : String, strDictMem parsed n = false →
      strDictFind (strDictUpdate defLocals parsed) n =
        strDictFind defLocals n := by
  constructor
  · unfold invokeSeedLocals
    rw [hB, hL]
  · intro n hmem
    exact strDictFind_update_of_not_mem defLocals parsed n hmem

theorem invoke_seed_locals_spec_witness :
    invokeSeedLocals [[("y", Value.int 7)]]
      { code := codeOneParam, defaults := [], definingLocalsRef := 0 }
      [Value.int 1] [] =
      some (strDictUpdate [("y", Value.int 7)] [("a", Value.int 1)]) ∧
    strDictFind (strDictUpdate [("y", Value.int 7)] [("a", Value.int 1)])
        "y" =
      strDictFind [("y", Value.int 7)] "y" := by
  have h := invoke_seed_locals_spec [[("y", Value.int 7)]]
    { code := codeOneParam, defaults := [], definingLocalsRef := 0 }
    [Value.int 1] [] [("y", Value.int 7)] [("a", Value.int 1)] rfl rfl
  exact ⟨h.1, h.2 "y" rfl⟩
